import Mathlib

/-!
Verification of the trajectory-sampling and quadrotor episode state machine
logic of the OmniNxt simulator application scripts.

The embedding covers:
* `process_group` from `apps/data_apps/01_path_tracking_sdg.py` — the
  trajectory sampling loop (stride iteration, dt computation, angular-velocity
  unit conversion, Python modulo semantics including division by zero);
* `QuadcopterWithYawEnv` from
  `apps/rl_apps/quad_controller/train/quad_env.py` — reward computation
  (`_get_rewards`), termination (`_get_dones`) and reset (`_reset_idx`).

Floating-point tensor arithmetic is modelled over `ℝ`; the vectorized batch
of `n` parallel environments is modelled by functions `Fin n → _`, the
elementwise tensor operations acting index by index.
-/

namespace OmniNxt

/-- A 3-vector of reals, modelling a float (x, y, z) tensor row. -/
structure Vec3 where
  x : ℝ
  y : ℝ
  z : ℝ

/-- A quaternion in scalar-first (w, x, y, z) convention, as stored in the
trajectory data and in the environment's quaternion tensors. -/
structure Quat where
  w : ℝ
  x : ℝ
  y : ℝ
  z : ℝ

/-- Componentwise scalar multiple of a `Vec3`. -/
noncomputable def v3scale (c : ℝ) (v : Vec3) : Vec3 := ⟨c * v.x, c * v.y, c * v.z⟩

/-- Componentwise difference of two `Vec3`s. -/
noncomputable def v3sub (a b : Vec3) : Vec3 := ⟨a.x - b.x, a.y - b.y, a.z - b.z⟩

/-- Sum of squares of the components: `torch.sum(torch.square(v))` for one
batch row, also the square of `torch.linalg.norm`. -/
noncomputable def normSq3 (v : Vec3) : ℝ := v.x ^ 2 + v.y ^ 2 + v.z ^ 2

/-! ## Trajectory sampler (`01_path_tracking_sdg.py`, `process_group`) -/

/-- Python runtime errors that the sampling loop can raise.
`zeroDivision` models Python's `ZeroDivisionError` raised by the `%` operator
with zero divisor; `indexOutOfRange` models an `IndexError`, the error class
the specification calls `IndexOutOfRange`. -/
inductive PyError where
  | zeroDivision
  | indexOutOfRange
deriving DecidableEq, Repr

/-- One group of the trajectory store: `len` samples, each with a timestamp,
position, orientation quaternion, linear velocity and angular velocity
(radians/second), indexed by sequential position.  The by-timestamp accessors
(`getPosbyTimestamp` etc., whose class lives outside this repository) resolve
a timestamp `ts i` back to the data at index `i`; under the data-model
invariant that timestamps are strictly increasing this is index access, which
is how the fields are read here. -/
structure Trajectory where
  len : ℕ
  ts : ℕ → ℝ
  pos : ℕ → Vec3
  quat : ℕ → Quat
  vel : ℕ → Vec3
  omg : ℕ → Vec3

/-- One callback invocation of the sampler: the values handed to
`rep.modify.pose`, `rep.physics.rigid_body` and `rep.orchestrator.step` for a
visited sample. -/
structure Emitted where
  timestamp : ℝ
  position : Vec3
  orientation : Quat
  velocity : Vec3
  angularVelocity : Vec3
  dt : ℝ

/-- The values emitted for the visited sample at index `i` (lines 245-265 of
`01_path_tracking_sdg.py`): the angular velocity is converted by `* 180 / pi`
before being handed to `rep.physics.rigid_body`, and
`dt = next_timestamp - timestamp` where `next_timestamp` is the timestamp of
index `i + 1` in the full unstrided trajectory if that index exists, else the
current timestamp (so the difference is zero). -/
noncomputable def emitSample (t : Trajectory) (i : ℕ) : Emitted where
  timestamp := t.ts i
  position := t.pos i
  orientation := t.quat i
  velocity := t.vel i
  angularVelocity := ⟨(t.omg i).x * 180 / Real.pi, (t.omg i).y * 180 / Real.pi,
    (t.omg i).z * 180 / Real.pi⟩
  dt := (if i + 1 < t.len then t.ts (i + 1) else t.ts i) - t.ts i

/-- The indices visited by the loop
`for sample_counter in range(len(trajectory)): if sample_counter % interval != 0: continue`.
Python's `%` on integers is floor modulo (`Int.fmod`), and raises
`ZeroDivisionError` on its first evaluation when `interval = 0` — which
happens iff the loop body runs at least once, i.e. iff the trajectory is
nonempty. -/
def sample_indices (L : ℕ) (interval : ℤ) : Except PyError (List ℕ) :=
  if 0 < L ∧ interval = 0 then Except.error PyError.zeroDivision
  else Except.ok ((List.range L).filter (fun i => decide (Int.fmod (i : ℤ) interval = 0)))

/-- The sequence of callback invocations performed by `process_group` for one
trajectory group, or the Python error that aborts the call. -/
noncomputable def process_group (t : Trajectory) (interval : ℤ) : Except PyError (List Emitted) :=
  (sample_indices t.len interval).map (fun l => l.map (emitSample t))

/-- The visited indices in pure `ℕ` form: every index of the trajectory whose
remainder modulo `k` is zero. -/
def visitedIdx (L k : ℕ) : List ℕ := (List.range L).filter (fun i => decide (i % k = 0))

/-! ## Quadrotor episode state machine (`quad_env.py`) -/

/-- Reward scale `lin_vel_reward_scale` from `QuadcopterEnvCfg`. -/
noncomputable def lin_vel_reward_scale : ℝ := -0.01

/-- Reward scale `ang_vel_reward_scale` from `QuadcopterEnvCfg`. -/
noncomputable def ang_vel_reward_scale : ℝ := -0.002

/-- Reward scale `distance_to_goal_reward_scale` from `QuadcopterEnvCfg`. -/
noncomputable def distance_to_goal_reward_scale : ℝ := 30.0

/-- Reward scale `radial_to_goal_yaw_reward_scale` from `QuadcopterEnvCfg`. -/
noncomputable def radial_to_goal_yaw_reward_scale : ℝ := 5.0

/-- `torch.clamp(x, lo, hi)` for one scalar. -/
noncomputable def clampR (x lo hi : ℝ) : ℝ := max lo (min x hi)

/-- Quaternion conjugation as performed in `_get_rewards`: the vector part
(x, y, z) is negated. -/
noncomputable def quatConj (q : Quat) : Quat := ⟨q.w, -q.x, -q.y, -q.z⟩

/-- The componentwise quaternion product `a * b` exactly as spelled out in
the four `torch.stack` rows of `_get_rewards` (lines 205-210 of
`quad_env.py`). -/
noncomputable def quatMulWxyz (a b : Quat) : Quat :=
  ⟨a.w * b.w - a.x * b.x - a.y * b.y - a.z * b.z,
   a.w * b.x + a.x * b.w + a.y * b.z - a.z * b.y,
   a.w * b.y - a.x * b.z + a.y * b.w + a.z * b.x,
   a.w * b.z + a.x * b.y - a.y * b.x + a.z * b.w⟩

/-- Squared Euclidean norm of a quaternion's four components. -/
noncomputable def quatNormSq (q : Quat) : ℝ := q.w ^ 2 + q.x ^ 2 + q.y ^ 2 + q.z ^ 2

/-- Negation of a quaternion (`-q` represents the same rotation as `q`). -/
noncomputable def quatNeg (q : Quat) : Quat := ⟨-q.w, -q.x, -q.y, -q.z⟩

/-- The quaternion-derived angular difference of `_get_rewards`
(lines 199-215 of `quad_env.py`): multiply `desired` by the conjugate of
`current`, normalize, then `2 * acos(clamp(w, -1, 1))` folded into `[0, π]`
by `min(d, 2π - d)`. -/
noncomputable def angular_diff (desired current : Quat) : ℝ :=
  let qd := quatMulWxyz desired (quatConj current)
  let wn := qd.w / Real.sqrt (quatNormSq qd)
  let d := 2 * Real.arccos (clampR wn (-1) 1)
  min d (2 * Real.pi - d)

/-- The per-environment running reward-component sums `_episode_sums`. -/
structure RewardSums where
  lin_vel : ℝ
  ang_vel : ℝ
  distance_to_goal_pose : ℝ
  radial_to_goal_yaw : ℝ

/-- The robot state read by `_get_rewards` for one environment: body-frame
linear and angular velocity, world-frame root position and orientation. -/
structure RobotObs where
  root_lin_vel_b : Vec3
  root_ang_vel_b : Vec3
  root_pos_w : Vec3
  root_quat_w : Quat

/-- One environment's slice of `_get_rewards` (lines 188-234 of
`quad_env.py`): returns the scalar step reward and the updated episode sums.
All tensor operations in the source are elementwise over the batch dimension
(the reductions `torch.sum(..., dim=1)` and `torch.linalg.norm(..., dim=1)`
act within one environment's row). -/
noncomputable def get_rewards (obs : RobotObs) (desired_pos_w : Vec3) (desired_yaw_quat : Quat)
    (step_dt : ℝ) (sums : RewardSums) : ℝ × RewardSums :=
  let lin_vel := normSq3 obs.root_lin_vel_b
  let ang_vel := normSq3 obs.root_ang_vel_b
  let distance_to_goal_pose := Real.sqrt (normSq3 (v3sub desired_pos_w obs.root_pos_w))
  let distance_to_goal_pose_mapped := 1 - Real.tanh (distance_to_goal_pose / 0.8)
  let radial_to_goal_yaw := angular_diff desired_yaw_quat obs.root_quat_w
  let r_lin := lin_vel * lin_vel_reward_scale * step_dt
  let r_ang := ang_vel * ang_vel_reward_scale * step_dt
  let r_dist := distance_to_goal_pose_mapped * distance_to_goal_reward_scale * step_dt
  let r_yaw := (1 - radial_to_goal_yaw / Real.pi) * radial_to_goal_yaw_reward_scale * step_dt
  (r_lin + r_ang + r_dist + r_yaw,
   ⟨sums.lin_vel + r_lin, sums.ang_vel + r_ang,
    sums.distance_to_goal_pose + r_dist, sums.radial_to_goal_yaw + r_yaw⟩)

/-- The batched `_get_rewards`: the per-step reward tensor and the updated
`_episode_sums`, computed environment by environment. -/
noncomputable def get_rewards_batch {n : ℕ} (obs : Fin n → RobotObs) (desired_pos_w : Fin n → Vec3)
    (desired_yaw_quat : Fin n → Quat) (step_dt : ℝ) (sums : Fin n → RewardSums) :
    (Fin n → ℝ) × (Fin n → RewardSums) :=
  (fun i => (get_rewards (obs i) (desired_pos_w i) (desired_yaw_quat i) step_dt (sums i)).1,
   fun i => (get_rewards (obs i) (desired_pos_w i) (desired_yaw_quat i) step_dt (sums i)).2)

/-- One environment's slice of `_get_dones` (lines 236-239 of `quad_env.py`):
`died` is `z < 0.1 or z > 2.0` on the world-frame root position, and
`time_out` is `episode_length_buf >= max_episode_length - 1`. -/
noncomputable def get_dones (root_pos_w : Vec3) (episode_length : ℕ) (max_episode_length : ℕ) :
    Prop × Prop :=
  (root_pos_w.z < 0.1 ∨ 2.0 < root_pos_w.z, max_episode_length - 1 ≤ episode_length)

/-- The inverse-CDF draw of `torch.Tensor.uniform_(lo, hi)`: the sampled value
as a function of the underlying unit draw `r ∈ [0, 1]`. -/
noncomputable def sampleUniform (lo hi r : ℝ) : ℝ := lo + r * (hi - lo)

/-- The per-environment episode state mutated by `_reset_idx`. -/
structure EnvState (n : ℕ) where
  desired_pos_w : Fin n → Vec3
  desired_yaw_w : Fin n → ℝ
  desired_yaw_quat : Fin n → Quat
  episode_sums : Fin n → RewardSums
  episode_length_buf : Fin n → ℕ
  actions : Fin n → Fin 4 → ℝ

/-- `_reset_idx` (lines 241-302 of `quad_env.py`) acting on the episode state.
`env_ids` is the subset of environments being reset; `r1 r2 r3 r4` are the
unit draws behind the four `uniform_` calls, `env_origins` the terrain
origins and `rand_steps` the draws behind the full-batch
`torch.randint_like` call.  Mirrored mutations, in source order: the subset is
widened to the whole batch when `len(env_ids) == num_envs`; the episode sums
of the subset are zeroed inside the logging loop; the episode step counters of
the subset are zeroed (this happens in `super()._reset_idx`, which lives in
the external `DirectRLEnv` base class — Modelled from the spec: every terminal
state triggers a reset back to `RUNNING`, i.e. the step counter restarts);
when the entire batch resets, all step counters are re-randomized by
`torch.randint_like`; the action-buffer rows of the subset are zeroed; desired
x, y are drawn by `uniform_(-3.0, 3.0)` then offset by the terrain origin,
desired z by `uniform_(0.5, 3.0)`, desired yaw by `uniform_(0, 6.28)`; the
w and z components of the desired-yaw quaternion are recomputed from the new
yaw (the x, y components are never written).  The physics write-back of the
robot's kinematic state is external and not part of the episode state. -/
noncomputable def reset_idx {n : ℕ} (s : EnvState n) (env_ids : Finset (Fin n))
    (r1 r2 r3 r4 : Fin n → ℝ) (env_origins : Fin n → Vec3)
    (rand_steps : Fin n → ℕ) : EnvState n :=
  let ids := if env_ids.card = n then Finset.univ else env_ids
  let yaw := fun i => if i ∈ ids then sampleUniform 0 6.28 (r4 i) else s.desired_yaw_w i
  { desired_pos_w := fun i => if i ∈ ids then
      ⟨sampleUniform (-3.0) 3.0 (r1 i) + (env_origins i).x,
       sampleUniform (-3.0) 3.0 (r2 i) + (env_origins i).y,
       sampleUniform 0.5 3.0 (r3 i)⟩
      else s.desired_pos_w i
    desired_yaw_w := yaw
    desired_yaw_quat := fun i => if i ∈ ids then
      ⟨Real.cos (yaw i / 2), (s.desired_yaw_quat i).x, (s.desired_yaw_quat i).y,
       Real.sin (yaw i / 2)⟩
      else s.desired_yaw_quat i
    episode_sums := fun i => if i ∈ ids then ⟨0, 0, 0, 0⟩ else s.episode_sums i
    episode_length_buf :=
      if ids.card = n then rand_steps
      else fun i => if i ∈ ids then 0 else s.episode_length_buf i
    actions := fun i => if i ∈ ids then (fun _ => 0) else s.actions i }

/-- Modelled from the spec: "resample ... desired yaw uniformly in [0, 2π)" —
the desired-yaw sampler that the specification describes, as a function of
the same underlying unit draw. -/
noncomputable def desired_yaw_spec_draw (r : ℝ) : ℝ := sampleUniform 0 (2 * Real.pi) r

/-! ## Theorems -/

/-- C2: for every environment in the batch, the per-step reward returned by
`_get_rewards` equals the sum of exactly four components, each multiplied by
the physics step duration — `-k1‖v_lin‖²`, `-k2‖v_ang‖²`,
`k3(1 - tanh(dist/0.8))` and `k4(1 - angular_diff/π)` with
`(k1, k2, k3, k4) = (0.01, 0.002, 30, 5)` — and each component is also added
to that environment's running reward sum. -/
theorem C2_reward_components {n : ℕ} (obs : Fin n → RobotObs) (dpos : Fin n → Vec3)
    (dquat : Fin n → Quat) (step_dt : ℝ) (sums : Fin n → RewardSums) (i : Fin n) :
    (get_rewards_batch obs dpos dquat step_dt sums).1 i =
        (-(0.01) * normSq3 (obs i).root_lin_vel_b) * step_dt
      + (-(0.002) * normSq3 (obs i).root_ang_vel_b) * step_dt
      + (30 * (1 - Real.tanh
          (Real.sqrt (normSq3 (v3sub (dpos i) ((obs i).root_pos_w))) / 0.8))) * step_dt
      + (5 * (1 - angular_diff (dquat i) ((obs i).root_quat_w) / Real.pi)) * step_dt
    ∧ ((get_rewards_batch obs dpos dquat step_dt sums).2 i).lin_vel =
        (sums i).lin_vel + (-(0.01) * normSq3 (obs i).root_lin_vel_b) * step_dt
    ∧ ((get_rewards_batch obs dpos dquat step_dt sums).2 i).ang_vel =
        (sums i).ang_vel + (-(0.002) * normSq3 (obs i).root_ang_vel_b) * step_dt
    ∧ ((get_rewards_batch obs dpos dquat step_dt sums).2 i).distance_to_goal_pose =
        (sums i).distance_to_goal_pose + (30 * (1 - Real.tanh
          (Real.sqrt (normSq3 (v3sub (dpos i) ((obs i).root_pos_w))) / 0.8))) * step_dt
    ∧ ((get_rewards_batch obs dpos dquat step_dt sums).2 i).radial_to_goal_yaw =
        (sums i).radial_to_goal_yaw +
          (5 * (1 - angular_diff (dquat i) ((obs i).root_quat_w) / Real.pi)) * step_dt := by
  refine ⟨?_, ?_, ?_, ?_, ?_⟩ <;>
    simp only [get_rewards_batch, get_rewards, lin_vel_reward_scale, ang_vel_reward_scale,
      distance_to_goal_reward_scale, radial_to_goal_yaw_reward_scale] <;>
    ring

/-- C5: `died` is true exactly when the world-frame z of the robot root lies
outside the closed band [0.1, 2.0]; in particular it is true at altitude
0.05 m, false at 1.0 m, and false at exactly 0.1 m and exactly 2.0 m. -/
theorem C5_died_band :
    (∀ (v : Vec3) (step maxLen : ℕ),
      (get_dones v step maxLen).1 ↔ v.z ∉ Set.Icc (0.1 : ℝ) 2.0)
    ∧ (∀ (step maxLen : ℕ) (x y : ℝ), (get_dones ⟨x, y, 0.05⟩ step maxLen).1)
    ∧ (∀ (step maxLen : ℕ) (x y : ℝ), ¬ (get_dones ⟨x, y, 1.0⟩ step maxLen).1)
    ∧ (∀ (step maxLen : ℕ) (x y : ℝ), ¬ (get_dones ⟨x, y, 0.1⟩ step maxLen).1)
    ∧ (∀ (step maxLen : ℕ) (x y : ℝ), ¬ (get_dones ⟨x, y, 2.0⟩ step maxLen).1) := by
  refine ⟨?_, ?_, ?_, ?_, ?_⟩ <;> intros <;>
    simp only [get_dones, Set.mem_Icc, not_and_or, not_le, not_or] <;> norm_num

/-- C5 witness: the termination predicate evaluated at altitudes 0.05 m and
1.0 m. -/
theorem C5_died_band_witness :
    (get_dones ⟨0, 0, 0.05⟩ 0 10).1 ∧ ¬ (get_dones ⟨0, 0, 1.0⟩ 0 10).1 :=
  ⟨C5_died_band.2.1 0 10 0 0, C5_died_band.2.2.1 0 10 0 0⟩

/-- C6: `time_out` is true exactly when the episode step counter has reached
`max_episode_length - 1`, and false at every smaller step count. -/
theorem C6_timeout_boundary (v : Vec3) (step maxLen : ℕ) :
    ((get_dones v step maxLen).2 ↔ maxLen - 1 ≤ step)
    ∧ (step < maxLen - 1 → ¬ (get_dones v step maxLen).2) := by
  constructor
  · exact Iff.rfl
  · intro h hc
    simp only [get_dones] at hc
    omega

/-- C6 witness: with maximum episode length 5 the flag flips exactly at step
count 4 = 5 - 1. -/
theorem C6_timeout_boundary_witness :
    ¬ (get_dones ⟨0, 0, 1⟩ 3 5).2 ∧ (get_dones ⟨0, 0, 1⟩ 4 5).2 :=
  ⟨(C6_timeout_boundary ⟨0, 0, 1⟩ 3 5).2 (by norm_num),
   (C6_timeout_boundary ⟨0, 0, 1⟩ 4 5).1.mpr (by norm_num)⟩

/-- The w-component of `desired * conj(current)` is the 4-dimensional dot
product of the two quaternions, hence symmetric in its arguments. -/
lemma quat_diff_w_symm (a b : Quat) :
    (quatMulWxyz a (quatConj b)).w = (quatMulWxyz b (quatConj a)).w := by
  simp only [quatMulWxyz, quatConj]
  ring

/-- The squared norm of `desired * conj(current)` is symmetric in the two
arguments. -/
lemma quat_diff_normSq_symm (a b : Quat) :
    quatNormSq (quatMulWxyz a (quatConj b)) = quatNormSq (quatMulWxyz b (quatConj a)) := by
  simp only [quatMulWxyz, quatConj, quatNormSq]
  ring

/-- A quaternion times its own conjugate is the real quaternion holding its
squared norm. -/
lemma quat_mul_conj_self (q : Quat) :
    quatMulWxyz q (quatConj q) = ⟨quatNormSq q, 0, 0, 0⟩ := by
  simp only [quatMulWxyz, quatConj, quatNormSq, Quat.mk.injEq]
  refine ⟨by ring, by ring, by ring, by ring⟩

/-- The negation of a quaternion times the conjugate of the original is the
real quaternion holding the negated squared norm. -/
lemma quat_mul_conj_neg_self (q : Quat) :
    quatMulWxyz (quatNeg q) (quatConj q) = ⟨-(quatNormSq q), 0, 0, 0⟩ := by
  simp only [quatMulWxyz, quatConj, quatNeg, quatNormSq, Quat.mk.injEq]
  refine ⟨by ring, by ring, by ring, by ring⟩

/-- The folded angular difference always lands in the closed interval
[0, π]. -/
lemma angular_diff_mem_Icc (d c : Quat) : angular_diff d c ∈ Set.Icc 0 Real.pi := by
  simp only [angular_diff]
  have ha0 : 0 ≤ Real.arccos (clampR
      ((quatMulWxyz d (quatConj c)).w /
        Real.sqrt (quatNormSq (quatMulWxyz d (quatConj c)))) (-1) 1) :=
    Real.arccos_nonneg _
  have hapi : Real.arccos (clampR
      ((quatMulWxyz d (quatConj c)).w /
        Real.sqrt (quatNormSq (quatMulWxyz d (quatConj c)))) (-1) 1) ≤ Real.pi :=
    Real.arccos_le_pi _
  constructor
  · exact le_min (by linarith) (by linarith)
  · rcases le_total (2 * Real.arccos (clampR
        ((quatMulWxyz d (quatConj c)).w /
          Real.sqrt (quatNormSq (quatMulWxyz d (quatConj c)))) (-1) 1)) Real.pi with h | h
    · exact le_trans (min_le_left _ _) h
    · exact le_trans (min_le_right _ _) (by linarith)

/-- At equal unit arguments the angular difference is zero. -/
lemma angular_diff_self (q : Quat) (h : quatNormSq q = 1) : angular_diff q q = 0 := by
  simp only [angular_diff, quat_mul_conj_self, h]
  rw [show quatNormSq ⟨1, 0, 0, 0⟩ = 1 by simp [quatNormSq]]
  rw [Real.sqrt_one, div_one]
  rw [show clampR 1 (-1) 1 = 1 by simp [clampR]]
  rw [Real.arccos_one]
  simp only [mul_zero, sub_zero]
  exact min_eq_left (by positivity)

/-- At sign-flipped unit arguments the angular difference is also zero: the
raw angle is 2π and folding by `min(d, 2π - d)` collapses it to 0. -/
lemma angular_diff_neg_self (q : Quat) (h : quatNormSq q = 1) :
    angular_diff (quatNeg q) q = 0 := by
  simp only [angular_diff, quat_mul_conj_neg_self, h]
  rw [show quatNormSq ⟨-(1 : ℝ), 0, 0, 0⟩ = 1 by simp [quatNormSq]]
  rw [Real.sqrt_one, div_one]
  rw [show clampR (-1) (-1) 1 = -1 by simp [clampR]]
  rw [Real.arccos_neg_one]
  rw [min_eq_right (by linarith [Real.pi_nonneg])]
  ring

/-- C9: the quaternion-derived yaw angular difference is symmetric in its two
unit-quaternion arguments, always lies in [0, π], and equals zero whenever
`q1 = q2` or `q1 = -q2`. -/
theorem C9_angular_diff_props (q1 q2 : Quat)
    (h1 : quatNormSq q1 = 1) (h2 : quatNormSq q2 = 1) :
    angular_diff q1 q2 = angular_diff q2 q1
    ∧ angular_diff q1 q2 ∈ Set.Icc 0 Real.pi
    ∧ (q1 = q2 → angular_diff q1 q2 = 0)
    ∧ (q1 = quatNeg q2 → angular_diff q1 q2 = 0) := by
  refine ⟨?_, angular_diff_mem_Icc q1 q2, ?_, ?_⟩
  · simp only [angular_diff]
    rw [quat_diff_w_symm, quat_diff_normSq_symm]
  · rintro rfl
    exact angular_diff_self q1 h1
  · rintro rfl
    exact angular_diff_neg_self q2 h2

/-- C9 witness: the identity unit quaternion compared with itself. -/
theorem C9_angular_diff_props_witness :
    angular_diff ⟨1, 0, 0, 0⟩ ⟨1, 0, 0, 0⟩ = 0 :=
  (C9_angular_diff_props ⟨1, 0, 0, 0⟩ ⟨1, 0, 0, 0⟩
    (by norm_num [quatNormSq]) (by norm_num [quatNormSq])).2.2.1 rfl

/-- A one-environment episode state with all-zero tensors, as after
construction. -/
noncomputable def envState1 : EnvState 1 :=
  ⟨fun _ => ⟨0, 0, 0⟩, fun _ => 0, fun _ => ⟨1, 0, 0, 0⟩, fun _ => ⟨0, 0, 0, 0⟩,
   fun _ => 0, fun _ _ => 0⟩

/-- A two-environment episode state with all-zero tensors. -/
noncomputable def envState2 : EnvState 2 :=
  ⟨fun _ => ⟨0, 0, 0⟩, fun _ => 0, fun _ => ⟨1, 0, 0, 0⟩, fun _ => ⟨0, 0, 0, 0⟩,
   fun _ => 0, fun _ _ => 0⟩

/-- C3 counterexample: the claim says the desired yaw is "sampled uniformly
in [0, 2π)", but the source draws `uniform_(0, 6.28)`.  At unit draw 1 the
reset produces yaw 6.28, while the sampler the claim describes produces
2π ≠ 6.28. -/
theorem C3_counterexample :
    (reset_idx envState1 Finset.univ (fun _ => 1) (fun _ => 1) (fun _ => 1) (fun _ => 1)
      (fun _ => ⟨0, 0, 0⟩) (fun _ => 0)).desired_yaw_w 0 ≠ desired_yaw_spec_draw 1 := by
  intro h
  simp only [reset_idx, desired_yaw_spec_draw, sampleUniform, Finset.card_univ,
    Fintype.card_fin, if_pos, Finset.mem_univ, if_true] at h
  have hpi := Real.pi_gt_d6
  norm_num at h
  linarith

/-- C3 (amended): after resetting any subset S of environments, for every
environment in S the desired x and y each lie in [-3, 3] offset by that
environment's terrain origin, the desired z lies in [0.5, 3.0], the desired
yaw is drawn by `uniform_(0, 6.28)` — so it lies in [0, 6.28], in particular
in [0, 2π) but not uniformly over all of it —, the desired-yaw quaternion's
w and z components are recomputed from the new yaw, the action buffer entries
are zero, and every reward-component running sum is exactly zero. -/
theorem C3_reset_ranges {n : ℕ} (s : EnvState n) (env_ids : Finset (Fin n))
    (r1 r2 r3 r4 : Fin n → ℝ) (env_origins : Fin n → Vec3) (rand_steps : Fin n → ℕ)
    (i : Fin n) (hi : i ∈ env_ids)
    (hr1 : r1 i ∈ Set.Icc (0 : ℝ) 1) (hr2 : r2 i ∈ Set.Icc (0 : ℝ) 1)
    (hr3 : r3 i ∈ Set.Icc (0 : ℝ) 1) (hr4 : r4 i ∈ Set.Icc (0 : ℝ) 1) :
    ((reset_idx s env_ids r1 r2 r3 r4 env_origins rand_steps).desired_pos_w i).x
        - (env_origins i).x ∈ Set.Icc (-3 : ℝ) 3
    ∧ ((reset_idx s env_ids r1 r2 r3 r4 env_origins rand_steps).desired_pos_w i).y
        - (env_origins i).y ∈ Set.Icc (-3 : ℝ) 3
    ∧ ((reset_idx s env_ids r1 r2 r3 r4 env_origins rand_steps).desired_pos_w i).z
        ∈ Set.Icc (0.5 : ℝ) 3
    ∧ (reset_idx s env_ids r1 r2 r3 r4 env_origins rand_steps).desired_yaw_w i
        = sampleUniform 0 6.28 (r4 i)
    ∧ (reset_idx s env_ids r1 r2 r3 r4 env_origins rand_steps).desired_yaw_w i
        ∈ Set.Icc (0 : ℝ) 6.28
    ∧ (reset_idx s env_ids r1 r2 r3 r4 env_origins rand_steps).desired_yaw_w i
        ∈ Set.Ico (0 : ℝ) (2 * Real.pi)
    ∧ ((reset_idx s env_ids r1 r2 r3 r4 env_origins rand_steps).desired_yaw_quat i).w
        = Real.cos ((reset_idx s env_ids r1 r2 r3 r4 env_origins rand_steps).desired_yaw_w i / 2)
    ∧ ((reset_idx s env_ids r1 r2 r3 r4 env_origins rand_steps).desired_yaw_quat i).z
        = Real.sin ((reset_idx s env_ids r1 r2 r3 r4 env_origins rand_steps).desired_yaw_w i / 2)
    ∧ (reset_idx s env_ids r1 r2 r3 r4 env_origins rand_steps).episode_sums i = ⟨0, 0, 0, 0⟩
    ∧ (∀ j, (reset_idx s env_ids r1 r2 r3 r4 env_origins rand_steps).actions i j = 0) := by
  obtain ⟨h10, h11⟩ := hr1
  obtain ⟨h20, h21⟩ := hr2
  obtain ⟨h30, h31⟩ := hr3
  obtain ⟨h40, h41⟩ := hr4
  have hmem : i ∈ (if env_ids.card = n then (Finset.univ : Finset (Fin n)) else env_ids) := by
    split
    · exact Finset.mem_univ i
    · exact hi
  have hpi := Real.pi_gt_d6
  simp only [reset_idx, hmem, if_true, sampleUniform]
  refine ⟨⟨by linarith, by linarith⟩, ⟨by linarith, by linarith⟩,
    ⟨by linarith, by linarith⟩, by norm_num, ⟨by linarith, by linarith⟩,
    ⟨by linarith, by linarith⟩, ?_, ?_, ?_, ?_⟩ <;> trivial

/-- C3 witness: a full-batch reset of a single environment with all unit
draws at 0. -/
theorem C3_reset_ranges_witness :
    (reset_idx envState1 Finset.univ (fun _ => 0) (fun _ => 0) (fun _ => 0) (fun _ => 0)
      (fun _ => ⟨0, 0, 0⟩) (fun _ => 0)).episode_sums 0 = ⟨0, 0, 0, 0⟩
    ∧ (reset_idx envState1 Finset.univ (fun _ => 0) (fun _ => 0) (fun _ => 0) (fun _ => 0)
      (fun _ => ⟨0, 0, 0⟩) (fun _ => 0)).desired_yaw_w 0 ∈ Set.Ico (0 : ℝ) (2 * Real.pi) := by
  have h := C3_reset_ranges envState1 Finset.univ (fun _ => 0) (fun _ => 0) (fun _ => 0)
    (fun _ => 0) (fun _ => ⟨0, 0, 0⟩) (fun _ => 0) 0 (Finset.mem_univ 0)
    (by norm_num) (by norm_num) (by norm_num) (by norm_num)
  exact ⟨h.2.2.2.2.2.2.2.2.1, h.2.2.2.2.2.1⟩

/-- C4: resetting a proper subset S of environments leaves the entire episode
state (desired goal position, desired yaw and its quaternion, reward sums,
step counter, action buffer) of every environment outside S unchanged. -/
theorem C4_reset_frame {n : ℕ} (s : EnvState n) (env_ids : Finset (Fin n))
    (r1 r2 r3 r4 : Fin n → ℝ) (env_origins : Fin n → Vec3) (rand_steps : Fin n → ℕ)
    (hproper : env_ids ≠ Finset.univ) (i : Fin n) (hi : i ∉ env_ids) :
    (reset_idx s env_ids r1 r2 r3 r4 env_origins rand_steps).desired_pos_w i
        = s.desired_pos_w i
    ∧ (reset_idx s env_ids r1 r2 r3 r4 env_origins rand_steps).desired_yaw_w i
        = s.desired_yaw_w i
    ∧ (reset_idx s env_ids r1 r2 r3 r4 env_origins rand_steps).desired_yaw_quat i
        = s.desired_yaw_quat i
    ∧ (reset_idx s env_ids r1 r2 r3 r4 env_origins rand_steps).episode_sums i
        = s.episode_sums i
    ∧ (reset_idx s env_ids r1 r2 r3 r4 env_origins rand_steps).episode_length_buf i
        = s.episode_length_buf i
    ∧ (reset_idx s env_ids r1 r2 r3 r4 env_origins rand_steps).actions i
        = s.actions i := by
  have hcard : ¬ env_ids.card = n := by
    intro h
    apply hproper
    apply (Finset.card_eq_iff_eq_univ env_ids).mp
    rw [Fintype.card_fin]
    exact h
  simp only [reset_idx, hcard, if_false, hi, if_neg, ite_false]
  simp [hi, hcard]

/-- C4 witness: resetting only environment 0 of a two-environment batch
leaves environment 1 untouched. -/
theorem C4_reset_frame_witness :
    (reset_idx envState2 {0} (fun _ => 1) (fun _ => 1) (fun _ => 1) (fun _ => 1)
      (fun _ => ⟨0, 0, 0⟩) (fun _ => 7)).episode_sums 1 = envState2.episode_sums 1
    ∧ (reset_idx envState2 {0} (fun _ => 1) (fun _ => 1) (fun _ => 1) (fun _ => 1)
      (fun _ => ⟨0, 0, 0⟩) (fun _ => 7)).episode_length_buf 1
        = envState2.episode_length_buf 1 := by
  have h := C4_reset_frame envState2 {0} (fun _ => 1) (fun _ => 1) (fun _ => 1) (fun _ => 1)
    (fun _ => ⟨0, 0, 0⟩) (fun _ => 7) (by decide) 1 (by decide)
  exact ⟨h.2.2.2.1, h.2.2.2.2.1⟩

/-- Python's floor modulo of an integer is zero exactly when the divisor
divides the dividend, for any nonzero divisor — including negative ones. -/
lemma int_fmod_eq_zero_iff (a b : ℤ) (hb : b ≠ 0) : Int.fmod a b = 0 ↔ b ∣ a := by
  constructor
  · intro h
    refine ⟨Int.fdiv a b, ?_⟩
    have hadd := Int.fmod_add_fdiv a b
    rw [h, zero_add] at hadd
    exact hadd.symm
  · rintro ⟨c, rfl⟩
    have hadd := Int.fmod_add_fdiv (b * c) b
    rw [Int.mul_fdiv_cancel_left c hb] at hadd
    linarith

/-- For any nonzero interval, the sampling loop succeeds and visits exactly
the indices whose remainder modulo the absolute value of the interval is
zero. -/
lemma sample_indices_eq (L : ℕ) (k : ℤ) (hk : k ≠ 0) :
    sample_indices L k = Except.ok (visitedIdx L k.natAbs) := by
  unfold sample_indices visitedIdx
  rw [if_neg (by simp [hk])]
  congr 1
  apply List.filter_congr
  intro i _
  apply decide_eq_decide.mpr
  rw [int_fmod_eq_zero_iff _ _ hk, ← Int.natAbs_dvd, Int.natCast_dvd_natCast,
    Nat.dvd_iff_mod_eq_zero]

/-- The visited indices for a positive stride `k` are the first
`⌈L/k⌉ = (L + k - 1)/k` multiples of `k`, in order. -/
lemma visitedIdx_eq_map (k : ℕ) (hk : 0 < k) :
    ∀ L, visitedIdx L k = (List.range ((L + k - 1) / k)).map (fun j => k * j) := by
  intro L
  induction L with
  | zero =>
    rw [visitedIdx, List.range_zero, List.filter_nil]
    rw [Nat.zero_add, Nat.div_eq_of_lt (by omega), List.range_zero, List.map_nil]
  | succ L ih =>
    rw [visitedIdx, List.range_succ, List.filter_append, ← visitedIdx, ih]
    by_cases h : L % k = 0
    · obtain ⟨q, rfl⟩ : ∃ q, L = k * q := ⟨L / k, (Nat.div_mul_cancel
        (Nat.dvd_of_mod_eq_zero h)).symm.trans (Nat.mul_comm _ _)⟩
      have h1 : (k * q + 1 + k - 1) / k = q + 1 := by
        rw [show k * q + 1 + k - 1 = k * (q + 1) by ring_nf; omega,
          Nat.mul_div_cancel_left _ hk]
      have h2 : (k * q + k - 1) / k = q := by
        rw [show k * q + k - 1 = (k - 1) + k * q by omega,
          Nat.add_mul_div_left _ _ hk, Nat.div_eq_of_lt (by omega), Nat.zero_add]
      rw [h1, h2, List.range_succ, List.map_append]
      simp [h]
    · have hq := Nat.div_add_mod L k
      have hrk := Nat.mod_lt L hk
      have hexp : k * (L / k + 1) = k * (L / k) + k := by ring
      have h1 : (L + 1 + k - 1) / k = (L + k - 1) / k := by
        have e1 : L + 1 + k - 1 = L % k + k * (L / k + 1) := by omega
        have e2 : L + k - 1 = (L % k - 1) + k * (L / k + 1) := by omega
        have e3 : L % k / k = 0 := Nat.div_eq_of_lt hrk
        have e4 : (L % k - 1) / k = 0 := Nat.div_eq_of_lt (by omega)
        rw [e1, e2, Nat.add_mul_div_left _ _ hk, Nat.add_mul_div_left _ _ hk, e3, e4]
      rw [h1]
      simp [h]

/-- When the timestamps of the trajectory are strictly increasing on its
domain, the timestamps of the visited samples are pairwise strictly
increasing. -/
lemma visitedIdx_ts_pairwise (t : Trajectory) (k : ℕ)
    (hts : ∀ i j, i < j → j < t.len → t.ts i < t.ts j) :
    ((visitedIdx t.len k).map t.ts).Pairwise (· < ·) := by
  rw [List.pairwise_map]
  have hfil : (visitedIdx t.len k).Pairwise (· < ·) :=
    (List.sorted_lt_range t.len).filter _
  refine List.Pairwise.imp_of_mem ?_ hfil
  intro a b _ hb hab
  exact hts a b hab (List.mem_range.mp (List.mem_of_mem_filter hb))

/-- A successful `process_group` call is the emission of a successful index
enumeration. -/
lemma process_group_ok_elim (t : Trajectory) (k : ℤ) (es : List Emitted)
    (hok : process_group t k = Except.ok es) :
    ∃ l : List ℕ, sample_indices t.len k = Except.ok l ∧ es = l.map (emitSample t) := by
  rw [process_group] at hok
  cases hs : sample_indices t.len k with
  | error err => rw [hs] at hok; cases hok
  | ok l =>
    rw [hs] at hok
    exact ⟨l, rfl, (Except.ok.inj hok).symm⟩

/-- C7: for every trajectory with strictly increasing timestamps and every
interval `k > 0`, the sampler visits exactly `⌈L/k⌉ = (L + k - 1)/k` samples,
namely those at indices `0, k, 2k, ...`, and the visited samples are in
strictly increasing timestamp order. -/
theorem C7_sampler_stride (t : Trajectory) (k : ℕ) (hk : 0 < k)
    (hts : ∀ i j, i < j → j < t.len → t.ts i < t.ts j)
    (es : List Emitted) (hok : process_group t (k : ℤ) = Except.ok es) :
    es.length = (t.len + k - 1) / k
    ∧ es = ((List.range ((t.len + k - 1) / k)).map (fun j => k * j)).map (emitSample t)
    ∧ (es.map (fun e => e.timestamp)).Pairwise (· < ·) := by
  obtain ⟨l, hs, rfl⟩ := process_group_ok_elim t _ es hok
  rw [sample_indices_eq t.len (k : ℤ) (by exact_mod_cast hk.ne')] at hs
  obtain rfl : l = visitedIdx t.len k := by
    have := Except.ok.inj hs
    simpa using this.symm
  refine ⟨?_, ?_, ?_⟩
  · rw [visitedIdx_eq_map k hk, List.length_map, List.length_map, List.length_range]
  · rw [visitedIdx_eq_map k hk]
  · rw [List.map_map]
    exact visitedIdx_ts_pairwise t k hts

/-- A concrete three-sample trajectory with timestamps 0, 1, 2 seconds. -/
noncomputable def traj3 : Trajectory :=
  ⟨3, fun i => (i : ℝ), fun _ => ⟨0, 0, 0⟩, fun _ => ⟨1, 0, 0, 0⟩,
   fun _ => ⟨0, 0, 0⟩, fun _ => ⟨0, 0, 0⟩⟩

/-- C7 witness: three samples strided by 2 yield ⌈3/2⌉ = 2 visits. -/
theorem C7_sampler_stride_witness :
    ((visitedIdx 3 2).map (emitSample traj3)).length = (3 + 2 - 1) / 2 :=
  (C7_sampler_stride traj3 2 (by norm_num)
    (fun i j hij _ => by simpa [traj3] using (Nat.cast_lt (α := ℝ)).mpr hij)
    ((visitedIdx 3 2).map (emitSample traj3)) rfl).1

/-- A concrete two-sample trajectory with timestamps 0 and 1 seconds. -/
noncomputable def traj2 : Trajectory :=
  ⟨2, fun i => (i : ℝ), fun _ => ⟨0, 0, 0⟩, fun _ => ⟨1, 0, 0, 0⟩,
   fun _ => ⟨0, 0, 0⟩, fun _ => ⟨0, 0, 0⟩⟩

/-- C1 counterexample: with a trajectory of 2 samples (timestamps 0 s, 1 s)
and interval 2, the only — hence last — visited sample is index 0, and its
emitted dt is the delta to index 1, namely 1 second, not zero. -/
theorem C1_counterexample :
    process_group traj2 2 = Except.ok [emitSample traj2 0]
    ∧ (emitSample traj2 0).dt ≠ 0 := by
  refine ⟨rfl, ?_⟩
  have h1 : (emitSample traj2 0).dt = 1 := by
    simp [emitSample, traj2]
  rw [h1]
  norm_num

/-- C1 (amended): every visited sample at index `i` is emitted with dt equal
to the timestamp delta to index `i + 1` of the full unstrided trajectory,
and with dt zero when `i` is the final index; hence the dt of the last
visited sample is zero when the final index `L - 1` is a multiple of the
interval (as in the 101-sample, interval-10 example), and otherwise it is
the delta to the next unstrided sample. -/
theorem C1_dt_policy (t : Trajectory) (k : ℕ) (hk : 0 < k)
    (es : List Emitted) (hok : process_group t (k : ℤ) = Except.ok es) :
    (∀ e ∈ es, ∃ i, i < t.len ∧ e = emitSample t i
      ∧ (i + 1 < t.len → e.dt = t.ts (i + 1) - t.ts i)
      ∧ (i + 1 = t.len → e.dt = 0))
    ∧ (k ∣ t.len - 1 → 0 < t.len →
        es.getLast? = some (emitSample t (t.len - 1))
        ∧ (emitSample t (t.len - 1)).dt = 0) := by
  obtain ⟨l, hs, rfl⟩ := process_group_ok_elim t _ es hok
  rw [sample_indices_eq t.len (k : ℤ) (by exact_mod_cast hk.ne')] at hs
  obtain rfl : l = visitedIdx t.len k := by
    have := Except.ok.inj hs
    simpa using this.symm
  constructor
  · intro e he
    obtain ⟨i, hi, rfl⟩ := List.mem_map.mp he
    have hirange : i < t.len := List.mem_range.mp (List.mem_of_mem_filter hi)
    refine ⟨i, hirange, rfl, ?_, ?_⟩
    · intro hlt
      simp [emitSample, if_pos hlt]
    · intro heq
      have hnlt : ¬ (i + 1 < t.len) := by omega
      simp [emitSample, if_neg hnlt]
  · intro hdvd hpos
    obtain ⟨q, hq⟩ := hdvd
    have hexp : k * (q + 1) = k * q + k := by ring
    have hm : (t.len + k - 1) / k = q + 1 := by
      rw [show t.len + k - 1 = k * (q + 1) by omega, Nat.mul_div_cancel_left _ hk]
    have hlast : k * q = t.len - 1 := hq.symm
    rw [visitedIdx_eq_map k hk, hm, List.range_succ, List.map_append, List.map_append]
    refine ⟨?_, ?_⟩
    · rw [List.map_singleton, List.map_singleton, List.getLast?_concat, hlast]
    · have hnlt : ¬ (t.len - 1 + 1 < t.len) := by omega
      simp [emitSample, if_neg hnlt]

/-- C1 witness: with three samples and interval 2 the last visited index is
2 = L - 1 and its dt is zero. -/
theorem C1_dt_policy_witness :
    ((visitedIdx 3 2).map (emitSample traj3)).getLast? = some (emitSample traj3 (3 - 1))
    ∧ (emitSample traj3 (3 - 1)).dt = 0 :=
  (C1_dt_policy traj3 2 (by norm_num)
    ((visitedIdx 3 2).map (emitSample traj3)) rfl).2 (by norm_num [traj3]) (by norm_num [traj3])

/-- C8 counterexample: with interval -1 the loop iterates over every sample
and succeeds (Python's `i % -1` is always 0), and with interval 0 it raises
ZeroDivisionError; neither is the IndexOutOfRange failure the claim
describes. -/
theorem C8_counterexample :
    process_group traj3 (-1) = Except.ok
      [emitSample traj3 0, emitSample traj3 1, emitSample traj3 2]
    ∧ process_group traj3 0 = Except.error PyError.zeroDivision
    ∧ PyError.zeroDivision ≠ PyError.indexOutOfRange :=
  ⟨rfl, rfl, by decide⟩

/-- C8 (amended): an interval of 0 on a nonempty trajectory makes the
iteration fail with ZeroDivisionError (not IndexOutOfRange), while a negative
interval does not fail at all: the loop visits exactly the indices divisible
by the interval's absolute value. -/
theorem C8_interval_nonpositive (t : Trajectory) (k : ℤ) :
    (0 < t.len → process_group t 0 = Except.error PyError.zeroDivision)
    ∧ (k < 0 →
        process_group t k = Except.ok ((visitedIdx t.len k.natAbs).map (emitSample t))) := by
  constructor
  · intro hpos
    rw [process_group, sample_indices, if_pos ⟨hpos, rfl⟩]
    rfl
  · intro hneg
    rw [process_group, sample_indices_eq t.len k (by omega)]
    rfl

/-- C8 witness: the two behaviours at intervals 0 and -2 on the concrete
three-sample trajectory. -/
theorem C8_interval_nonpositive_witness :
    process_group traj3 0 = Except.error PyError.zeroDivision
    ∧ process_group traj3 (-2) =
        Except.ok ((visitedIdx 3 2).map (emitSample traj3)) :=
  ⟨(C8_interval_nonpositive traj3 0).1 (by norm_num [traj3]),
   (C8_interval_nonpositive traj3 (-2)).2 (by norm_num)⟩

/-- C10: every sample visited by the sampler hands the physics rigid-body
injection the trajectory's stored angular velocity multiplied by 180/π — the
silent radians-to-degrees conversion of line 249. -/
theorem C10_angular_velocity_scaled (t : Trajectory) (k : ℤ) (es : List Emitted)
    (hok : process_group t k = Except.ok es) (e : Emitted) (he : e ∈ es) :
    ∃ i, i < t.len ∧ e.timestamp = t.ts i
      ∧ e.angularVelocity = v3scale (180 / Real.pi) (t.omg i) := by
  obtain ⟨l, hs, rfl⟩ := process_group_ok_elim t _ es hok
  have hsub : ∀ i ∈ l, i < t.len := by
    rw [sample_indices] at hs
    split at hs
    · cases hs
    · intro i hi
      have hl := Except.ok.inj hs
      rw [← hl] at hi
      exact List.mem_range.mp (List.mem_of_mem_filter hi)
  obtain ⟨i, hi, rfl⟩ := List.mem_map.mp he
  refine ⟨i, hsub i hi, rfl, ?_⟩
  simp only [emitSample, v3scale, Vec3.mk.injEq]
  refine ⟨by ring, by ring, by ring⟩

/-- C10 witness: the first visited sample of the concrete trajectory at
interval 1. -/
theorem C10_angular_velocity_scaled_witness :
    ∃ i, i < traj3.len ∧ (emitSample traj3 0).timestamp = traj3.ts i
      ∧ (emitSample traj3 0).angularVelocity = v3scale (180 / Real.pi) (traj3.omg i) :=
  C10_angular_velocity_scaled traj3 1 ((visitedIdx 3 1).map (emitSample traj3)) rfl
    (emitSample traj3 0) (List.mem_map.mpr ⟨0, by decide, rfl⟩)

end OmniNxt
